import Mathlib

/-!
# Verification of the `SocialBondFhe` contract (src/README.md)

Shallow embedding of the Solidity contract `SocialBondFhe` from the
repository's README.  Every entry point of the contract is transcribed as a
pure Lean function from a `State` (the contract's storage) and the call's
environment (`msg.sender`, `block.timestamp`, call arguments) to
`Except Err (State × List Event)`: an `.error e` models a revert (the EVM
rolls back all writes, so no state is returned), an `.ok (s', evs)` models a
successful call that leaves storage `s'` and emits the events `evs`.

The FHE encryption primitive (Zama fhEVM) and `keccak256` are external
capabilities not present in the repository; following the spec they are
modelled as opaque, ideal operations: ciphertext handles form a free term
algebra (`Handle`) and hashes form a free term algebra (`Bytes32`), so the
homomorphic add is a free binary operation and the hash is injective with an
output distinct from the zero word (the ideal-hash / symbolic-crypto model).
`FHE.checkSignatures` is an arbitrary boolean predicate supplied by the
environment, since the oracle's signature scheme is external.
-/

namespace SBF

/-- Ethereum addresses, modelled as natural numbers. -/
abbrev Address := Nat

/-- Modelled from the spec: an opaque FHE ciphertext handle (`euint32`).  The
encryption primitive is an external capability, so handles form a free term
algebra: `lit n` is a plain `uint256` word used in handle position (the
contract stores the literal `0` into `totalEncryptedAmount` at `openBatch`,
and a never-written mapping slot reads as `0`), `enc n` is the trivial
encryption `FHE.asEuint32(n)`, `ext i` is an externally supplied ciphertext
(a provider's input), and `add a b` is the homomorphic sum `FHE.add(a, b)`. -/
inductive Handle : Type where
  | lit (n : Nat)
  | enc (n : Nat)
  | ext (i : Nat)
  | add (a b : Handle)
  deriving DecidableEq, Repr

mutual

/-- Modelled from the spec: 32-byte words in hash position.  `zero` is
`bytes32(0)` (the default value of a storage slot), `ofHandle h` is
`FHE.toBytes32(h)`, and `keccak cts self` is
`keccak256(abi.encode(cts, address(this)))` over a `bytes32[]` array `cts`
(represented by the mutually defined `Bytes32List`).  Treating `keccak` as a
free constructor models the ideal hash: injective, and never equal to the
zero word. -/
inductive Bytes32 : Type where
  | zero
  | ofHandle (h : Handle)
  | keccak (cts : Bytes32List) (self : Address)

/-- A `bytes32[] memory` array. -/
inductive Bytes32List : Type where
  | nil
  | cons (head : Bytes32) (tail : Bytes32List)

end

deriving instance DecidableEq for Bytes32
deriving instance DecidableEq for Bytes32List
deriving instance Repr for Bytes32
deriving instance Repr for Bytes32List

/-- The two-element array `new bytes32[](2)` filled with `c0`, `c1`. -/
def pair2 (c0 c1 : Bytes32) : Bytes32List :=
  Bytes32List.cons c0 (Bytes32List.cons c1 Bytes32List.nil)

namespace FHE

/-- `FHE.add`: homomorphic addition of two ciphertext handles. -/
def add (a b : Handle) : Handle := Handle.add a b

/-- `FHE.asEuint32(n)`: trivial encryption of a plaintext, truncated to the
32-bit range of `euint32` (4294967296 = 2^32). -/
def asEuint32 (n : Nat) : Handle := Handle.enc (n % 4294967296)

/-- `FHE.toBytes32`: serialize a handle to its 32-byte commitment form. -/
def toBytes32 (h : Handle) : Bytes32 := Bytes32.ofHandle h

/-- `FHE.isInitialized`: whether a handle refers to an actual ciphertext.
A plain zero word in handle position is the uninitialized handle. -/
def isInitialized (h : Handle) : Bool :=
  match h with
  | Handle.lit n => n ≠ 0
  | _ => true

end FHE

/-- The oracle's cleartext payload `bytes cleartexts`: it ABI-encodes the two
decrypted words, decoded by the contract as `(uint32, uint32)`. -/
abbrev Cleartexts := Nat × Nat

/-- The oracle's `bytes proof` payload, opaque to the contract. -/
abbrev ProofBytes := Nat

/-- `FHE.checkSignatures` is an external capability of the fhEVM library; a
`Verifier` is an arbitrary implementation of it supplied by the
environment. -/
abbrev Verifier := Nat → Cleartexts → ProofBytes → Bool

/-- A Solidity `mapping(uint256 => β)` / `mapping(address => β)`: an
association list where an absent key denotes the type's default value. -/
abbrev Map (β : Type) := List (Nat × β)

/-- Mapping read: the stored value, or the default `d` for an absent key. -/
def lookupD {β : Type} (m : Map β) (k : Nat) (d : β) : β :=
  match m with
  | [] => d
  | (k₀, v₀) :: rest => if k = k₀ then v₀ else lookupD rest k d

/-- Mapping write. -/
def setK {β : Type} (m : Map β) (k : Nat) (v : β) : Map β :=
  (k, v) :: m

/-- Whether a key has ever been written. -/
def memK {β : Type} (m : Map β) (k : Nat) : Bool :=
  match m with
  | [] => false
  | (k₀, _) :: rest => if k = k₀ then true else memK rest k

/-- `struct DecryptionContext { uint256 batchId; bytes32 stateHash; bool processed; }` -/
structure DecryptionContext : Type where
  batchId : Nat
  stateHash : Bytes32
  processed : Bool
  deriving DecidableEq, Repr

/-- The default (never-written) `DecryptionContext` storage value. -/
def DecryptionContext.default : DecryptionContext :=
  { batchId := 0, stateHash := Bytes32.zero, processed := false }

/-- `struct Bond { euint32 encryptedAmount; euint32 encryptedMaturity; }` -/
structure Bond : Type where
  encryptedAmount : Handle
  encryptedMaturity : Handle
  deriving DecidableEq, Repr

/-- The default (never-written) `Bond` storage value. -/
def Bond.default : Bond :=
  { encryptedAmount := Handle.lit 0, encryptedMaturity := Handle.lit 0 }

/-- `struct Batch { uint256 totalEncryptedAmount; uint256 bondCount; bool finalized; }`
The `totalEncryptedAmount` slot holds a ciphertext handle (it is assigned
`FHE.add` results and read back as an `euint32`). -/
structure Batch : Type where
  totalEncryptedAmount : Handle
  bondCount : Nat
  finalized : Bool
  deriving DecidableEq, Repr

/-- The default (never-written) `Batch` storage value. -/
def Batch.default : Batch :=
  { totalEncryptedAmount := Handle.lit 0, bondCount := 0, finalized := false }

/-- The full storage of the `SocialBondFhe` contract, plus `selfAddr`, the
contract's own address (`address(this)`, fixed at deployment). -/
structure State : Type where
  owner : Address
  providers : Map Bool
  lastSubmissionTime : Map Nat
  lastDecryptionRequestTime : Map Nat
  cooldownSeconds : Nat
  paused : Bool
  currentBatchId : Nat
  batchOpen : Bool
  decryptionContexts : Map DecryptionContext
  bonds : Map Bond
  totalBonds : Nat
  batches : Map Batch
  selfAddr : Address
  deriving DecidableEq, Repr

/-- The contract's custom errors. -/
inductive Err : Type where
  | NotOwner
  | NotProvider
  | PausedState
  | CooldownActive
  | BatchNotOpen
  | BatchAlreadyOpen
  | InvalidBatch
  | InvalidCooldown
  | ReplayAttempt
  | StateMismatch
  | InvalidProof
  deriving DecidableEq, Repr

/-- The contract's events. -/
inductive Event : Type where
  | OwnershipTransferred (previousOwner newOwner : Address)
  | ProviderAdded (provider : Address)
  | ProviderRemoved (provider : Address)
  | CooldownSecondsChanged (oldCooldown newCooldown : Nat)
  | Paused (account : Address)
  | Unpaused (account : Address)
  | BatchOpened (batchId : Nat)
  | BatchClosed (batchId : Nat)
  | BondSubmitted (provider : Address) (bondId batchId : Nat)
  | DecryptionRequested (requestId batchId : Nat)
  | DecryptionCompleted (requestId batchId totalAmount bondCount : Nat)
  deriving DecidableEq, Repr

/-- Mapping reads used throughout: the `Batch` stored for a batch id. -/
def getBatch (s : State) (batchId : Nat) : Batch :=
  lookupD s.batches batchId Batch.default

/-- The `DecryptionContext` stored for a request id. -/
def getCtx (s : State) (requestId : Nat) : DecryptionContext :=
  lookupD s.decryptionContexts requestId DecryptionContext.default

/-- The contract's storage right after the constructor ran in a deployment
transaction sent by `deployer` to address `self`: `owner = msg.sender`,
`cooldownSeconds = 60`, every mapping empty, every scalar zero/false. -/
def initialState (deployer self : Address) : State :=
  { owner := deployer
    providers := []
    lastSubmissionTime := []
    lastDecryptionRequestTime := []
    cooldownSeconds := 60
    paused := false
    currentBatchId := 0
    batchOpen := false
    decryptionContexts := []
    bonds := []
    totalBonds := 0
    batches := []
    selfAddr := self }

/-- `_hashCiphertexts(cts) = keccak256(abi.encode(cts, address(this)))`. -/
def hashCiphertexts (cts : Bytes32List) (self : Address) : Bytes32 :=
  Bytes32.keccak cts self

/-- `_initIfNeeded(euint32 val)`: checks `FHE.isInitialized` and, when false,
calls `FHE.asEuint32(0)` but discards the result; it writes nothing. -/
def initIfNeeded (val : Handle) : Unit :=
  if FHE.isInitialized val then ()
  else
    let _ := FHE.asEuint32 0
    ()

/-- `transferOwnership(newOwner)`: `onlyOwner`. -/
def transferOwnership (s : State) (sender newOwner : Address) :
    Except Err (State × List Event) :=
  if sender ≠ s.owner then .error .NotOwner
  else
    .ok ({ s with owner := newOwner },
         [Event.OwnershipTransferred s.owner newOwner])

/-- `addProvider(provider)`: `onlyOwner`. -/
def addProvider (s : State) (sender provider : Address) :
    Except Err (State × List Event) :=
  if sender ≠ s.owner then .error .NotOwner
  else
    .ok ({ s with providers := setK s.providers provider true },
         [Event.ProviderAdded provider])

/-- `removeProvider(provider)`: `onlyOwner`. -/
def removeProvider (s : State) (sender provider : Address) :
    Except Err (State × List Event) :=
  if sender ≠ s.owner then .error .NotOwner
  else
    .ok ({ s with providers := setK s.providers provider false },
         [Event.ProviderRemoved provider])

/-- `setCooldownSeconds(newCooldownSeconds)`: `onlyOwner`, rejects zero. -/
def setCooldownSeconds (s : State) (sender : Address) (newCooldownSeconds : Nat) :
    Except Err (State × List Event) :=
  if sender ≠ s.owner then .error .NotOwner
  else if newCooldownSeconds = 0 then .error .InvalidCooldown
  else
    .ok ({ s with cooldownSeconds := newCooldownSeconds },
         [Event.CooldownSecondsChanged s.cooldownSeconds newCooldownSeconds])

/-- `pause()`: `onlyOwner whenNotPaused`. -/
def pause (s : State) (sender : Address) : Except Err (State × List Event) :=
  if sender ≠ s.owner then .error .NotOwner
  else if s.paused then .error .PausedState
  else .ok ({ s with paused := true }, [Event.Paused sender])

/-- `unpause()`: `onlyOwner`, no paused guard. -/
def unpause (s : State) (sender : Address) : Except Err (State × List Event) :=
  if sender ≠ s.owner then .error .NotOwner
  else .ok ({ s with paused := false }, [Event.Unpaused sender])

/-- `openBatch()`: `onlyOwner whenNotPaused`; allocates the next batch id,
resets its aggregate, and opens it. -/
def openBatch (s : State) (sender : Address) : Except Err (State × List Event) :=
  if sender ≠ s.owner then .error .NotOwner
  else if s.paused then .error .PausedState
  else if s.batchOpen then .error .BatchAlreadyOpen
  else
    let newId := s.currentBatchId + 1
    .ok ({ s with
            currentBatchId := newId
            batchOpen := true
            batches := setK s.batches newId
              { totalEncryptedAmount := Handle.lit 0, bondCount := 0, finalized := false } },
         [Event.BatchOpened newId])

/-- `closeBatch()`: `onlyOwner whenNotPaused`; finalizes the open batch. -/
def closeBatch (s : State) (sender : Address) : Except Err (State × List Event) :=
  if sender ≠ s.owner then .error .NotOwner
  else if s.paused then .error .PausedState
  else if s.batchOpen = false then .error .BatchNotOpen
  else
    let b := getBatch s s.currentBatchId
    .ok ({ s with
            batchOpen := false
            batches := setK s.batches s.currentBatchId { b with finalized := true } },
         [Event.BatchClosed s.currentBatchId])

/-- `submitBond(encryptedAmount, encryptedMaturity)`:
`onlyProvider whenNotPaused checkSubmissionCooldown`, requires an open batch;
records the bond, homomorphically adds its amount into the open batch's
total, increments the count, stamps the cooldown. -/
def submitBond (s : State) (sender : Address) (now : Nat)
    (encryptedAmount encryptedMaturity : Handle) :
    Except Err (State × List Event) :=
  if lookupD s.providers sender false = false then .error .NotProvider
  else if s.paused then .error .PausedState
  else if now < lookupD s.lastSubmissionTime sender 0 + s.cooldownSeconds then
    .error .CooldownActive
  else if s.batchOpen = false then .error .BatchNotOpen
  else
    let _ := initIfNeeded encryptedAmount
    let _ := initIfNeeded encryptedMaturity
    let totalBonds' := s.totalBonds + 1
    let bondId := totalBonds'
    let b := getBatch s s.currentBatchId
    let b' := { b with
                 totalEncryptedAmount := FHE.add b.totalEncryptedAmount encryptedAmount
                 bondCount := b.bondCount + 1 }
    .ok ({ s with
            totalBonds := totalBonds'
            bonds := setK s.bonds bondId
              { encryptedAmount := encryptedAmount, encryptedMaturity := encryptedMaturity }
            batches := setK s.batches s.currentBatchId b'
            lastSubmissionTime := setK s.lastSubmissionTime sender now },
         [Event.BondSubmitted sender bondId s.currentBatchId])

/-- `requestBatchDecryption(batchId)`:
`onlyOwner whenNotPaused checkDecryptionCooldown`; validates the batch,
commits to the hash of its two ciphertexts, and stores a fresh
`DecryptionContext` under the oracle-issued `requestId` (the return value of
`FHE.requestDecryption`, supplied here by the environment). -/
def requestBatchDecryption (s : State) (sender : Address) (now batchId requestId : Nat) :
    Except Err (State × List Event) :=
  if sender ≠ s.owner then .error .NotOwner
  else if s.paused then .error .PausedState
  else if now < lookupD s.lastDecryptionRequestTime sender 0 + s.cooldownSeconds then
    .error .CooldownActive
  else if batchId = 0 ∨ s.currentBatchId < batchId ∨ (getBatch s batchId).finalized = false then
    .error .InvalidBatch
  else
    let b := getBatch s batchId
    let encryptedTotalAmount := b.totalEncryptedAmount
    let encryptedBondCount := FHE.asEuint32 b.bondCount
    let cts := pair2 (FHE.toBytes32 encryptedTotalAmount) (FHE.toBytes32 encryptedBondCount)
    let stateHash := hashCiphertexts cts s.selfAddr
    .ok ({ s with
            decryptionContexts := setK s.decryptionContexts requestId
              { batchId := batchId, stateHash := stateHash, processed := false }
            lastDecryptionRequestTime := setK s.lastDecryptionRequestTime sender now },
         [Event.DecryptionRequested requestId batchId])

/-- `myCallback(requestId, cleartexts, proof)`: the oracle callback; public,
no modifiers.  Checks replay, then the state-hash commitment, then the
decryption proof (via the external `Verifier`), then decodes the cleartexts
as `(uint32, uint32)`, marks the context processed and emits the completion
event. -/
def myCallback (verify : Verifier) (s : State) (requestId : Nat)
    (cleartexts : Cleartexts) (proof : ProofBytes) :
    Except Err (State × List Event) :=
  let ctx := getCtx s requestId
  if ctx.processed then .error .ReplayAttempt
  else
    let batchId := ctx.batchId
    let b := getBatch s batchId
    let currentCts := pair2 (FHE.toBytes32 b.totalEncryptedAmount)
                            (FHE.toBytes32 (FHE.asEuint32 b.bondCount))
    let currentStateHash := hashCiphertexts currentCts s.selfAddr
    if currentStateHash ≠ ctx.stateHash then .error .StateMismatch
    else if verify requestId cleartexts proof = false then .error .InvalidProof
    else
      let totalAmount := cleartexts.1 % 4294967296
      let bondCount := cleartexts.2 % 4294967296
      .ok ({ s with
              decryptionContexts := setK s.decryptionContexts requestId
                { ctx with processed := true } },
           [Event.DecryptionCompleted requestId batchId totalAmount bondCount])

/-- Transaction semantics of a call: on success the new storage, on revert
the unchanged storage (the EVM rolls back every write of a reverted call). -/
def runCall (s : State) (r : Except Err (State × List Event)) :
    State × Except Err (List Event) :=
  match r with
  | .ok (s', evs) => (s', .ok evs)
  | .error e => (s, .error e)

/-- One successful transaction against the contract, by any caller at any
time.  `doRequest` carries the freshness of the oracle-issued request id
(modelled from the spec: `FHE.requestDecryption` returns a fresh id never
issued before), and `doCallback` quantifies over the external proof
verifier, since the oracle is untrusted. -/
inductive Step : State → State → Prop where
  | doTransferOwnership (s : State) (sender newOwner : Address)
      (s' : State) (evs : List Event)
      (h : transferOwnership s sender newOwner = .ok (s', evs)) : Step s s'
  | doAddProvider (s : State) (sender provider : Address)
      (s' : State) (evs : List Event)
      (h : addProvider s sender provider = .ok (s', evs)) : Step s s'
  | doRemoveProvider (s : State) (sender provider : Address)
      (s' : State) (evs : List Event)
      (h : removeProvider s sender provider = .ok (s', evs)) : Step s s'
  | doSetCooldown (s : State) (sender : Address) (n : Nat)
      (s' : State) (evs : List Event)
      (h : setCooldownSeconds s sender n = .ok (s', evs)) : Step s s'
  | doPause (s : State) (sender : Address) (s' : State) (evs : List Event)
      (h : pause s sender = .ok (s', evs)) : Step s s'
  | doUnpause (s : State) (sender : Address) (s' : State) (evs : List Event)
      (h : unpause s sender = .ok (s', evs)) : Step s s'
  | doOpenBatch (s : State) (sender : Address) (s' : State) (evs : List Event)
      (h : openBatch s sender = .ok (s', evs)) : Step s s'
  | doCloseBatch (s : State) (sender : Address) (s' : State) (evs : List Event)
      (h : closeBatch s sender = .ok (s', evs)) : Step s s'
  | doSubmitBond (s : State) (sender : Address) (now : Nat)
      (encryptedAmount encryptedMaturity : Handle) (s' : State) (evs : List Event)
      (h : submitBond s sender now encryptedAmount encryptedMaturity = .ok (s', evs)) :
      Step s s'
  | doRequest (s : State) (sender : Address) (now batchId requestId : Nat)
      (s' : State) (evs : List Event)
      (hfresh : memK s.decryptionContexts requestId = false)
      (h : requestBatchDecryption s sender now batchId requestId = .ok (s', evs)) :
      Step s s'
  | doCallback (verify : Verifier) (s : State) (requestId : Nat)
      (cleartexts : Cleartexts) (proof : ProofBytes) (s' : State) (evs : List Event)
      (h : myCallback verify s requestId cleartexts proof = .ok (s', evs)) : Step s s'

/-- Zero or more successful transactions. -/
inductive StepStar : State → State → Prop where
  | refl (s : State) : StepStar s s
  | tail (s s' s'' : State) (hs : StepStar s s') (h : Step s' s'') : StepStar s s''

/-- States reachable from some deployment of the contract. -/
inductive Reachable : State → Prop where
  | init (deployer self : Address) : Reachable (initialState deployer self)
  | step (s s' : State) (hs : Reachable s) (h : Step s s') : Reachable s'

/-! ### Association-map lemmas -/

theorem lookupD_setK_eq {β : Type} (m : Map β) (k : Nat) (v d : β) :
    lookupD (setK m k v) k d = v := by
  simp [lookupD, setK]

theorem lookupD_setK_ne {β : Type} (m : Map β) (k k' : Nat) (v d : β)
    (h : k' ≠ k) : lookupD (setK m k v) k' d = lookupD m k' d := by
  simp [lookupD, setK, h]

theorem lookupD_of_memK_false {β : Type} (m : Map β) (k : Nat) (d : β)
    (h : memK m k = false) : lookupD m k d = d := by
  induction m with
  | nil => rfl
  | cons hd tl ih =>
    obtain ⟨k₀, v₀⟩ := hd
    by_cases hk : k = k₀
    · simp [memK, hk] at h
    · simp [memK, hk] at h
      simp [lookupD, hk, ih h]

/-! ### A concrete execution (the spec's end-to-end scenario)

Owner `10` deploys the contract at address `7`, registers provider `1`,
opens batch 1, provider `1` submits bonds of encrypted amounts `ext 100`
and `ext 250`, the owner closes the batch and requests its decryption,
obtaining oracle request id `5`.  These states serve as concrete inputs in
the closed instantiations below. -/

/-- The state a successful call leaves behind (`fb` if the call reverted —
never exercised in the scenario below). -/
def stepOk (r : Except Err (State × List Event)) (fb : State) : State :=
  match r with
  | .ok (s, _) => s
  | .error _ => fb

/-- Freshly deployed contract: owner `10`, contract address `7`. -/
def sc0 : State := initialState 10 7

/-- After `addProvider(1)`. -/
def sc1 : State := stepOk (addProvider sc0 10 1) sc0

/-- After `openBatch()` (batch 1 open). -/
def sc2 : State := stepOk (openBatch sc1 10) sc1

/-- After provider 1 submits a bond of encrypted amount `ext 100` at time 1000. -/
def sc3 : State := stepOk (submitBond sc2 1 1000 (Handle.ext 100) (Handle.ext 500)) sc2

/-- After provider 1 submits a bond of encrypted amount `ext 250` at time 2000. -/
def sc4 : State := stepOk (submitBond sc3 1 2000 (Handle.ext 250) (Handle.ext 600)) sc3

/-- After `closeBatch()` (batch 1 finalized, count 2). -/
def sc5 : State := stepOk (closeBatch sc4 10) sc4

/-- After `requestBatchDecryption(1)` at time 3000 with oracle request id 5. -/
def sc6 : State := stepOk (requestBatchDecryption sc5 10 3000 1 5) sc5

/-- After the owner additionally calls `pause()`. -/
def sc7 : State := stepOk (pause sc6 10) sc6

/-- A verifier that accepts every proof. -/
def vTrue : Verifier := fun _ _ _ => true

/-- A verifier that rejects every proof. -/
def vFalse : Verifier := fun _ _ _ => false

/-- The commitment hash over batch `batchId`'s two ciphertexts as computed
from storage `s`: exactly the expression `_hashCiphertexts(cts)` that both
`requestBatchDecryption` (stored) and `myCallback` (recomputed) evaluate. -/
def currentHash (s : State) (batchId : Nat) : Bytes32 :=
  hashCiphertexts
    (pair2 (FHE.toBytes32 (getBatch s batchId).totalEncryptedAmount)
           (FHE.toBytes32 (FHE.asEuint32 (getBatch s batchId).bondCount)))
    s.selfAddr

/-! ### Branch characterizations of `myCallback` -/

theorem myCallback_replay (verify : Verifier) (s : State) (rid : Nat)
    (cl : Cleartexts) (pr : ProofBytes) (h : (getCtx s rid).processed = true) :
    myCallback verify s rid cl pr = .error .ReplayAttempt := by
  simp only [myCallback, h, if_true]

theorem myCallback_stateMismatch (verify : Verifier) (s : State) (rid : Nat)
    (cl : Cleartexts) (pr : ProofBytes)
    (h1 : (getCtx s rid).processed = false)
    (h2 : currentHash s (getCtx s rid).batchId ≠ (getCtx s rid).stateHash) :
    myCallback verify s rid cl pr = .error .StateMismatch := by
  simp only [myCallback, h1, Bool.false_eq_true, if_false]
  rw [if_pos]
  exact h2

theorem myCallback_invalidProof (verify : Verifier) (s : State) (rid : Nat)
    (cl : Cleartexts) (pr : ProofBytes)
    (h1 : (getCtx s rid).processed = false)
    (h2 : currentHash s (getCtx s rid).batchId = (getCtx s rid).stateHash)
    (h3 : verify rid cl pr = false) :
    myCallback verify s rid cl pr = .error .InvalidProof := by
  simp only [myCallback, h1, Bool.false_eq_true, if_false]
  rw [if_neg (by simpa [currentHash] using h2), if_pos h3]

/-- The storage write of a completed callback: the stored context for `rid`
with its `processed` flag set, everything else untouched. -/
def markProcessed (s : State) (rid : Nat) : State :=
  { s with decryptionContexts := setK s.decryptionContexts rid
             { getCtx s rid with processed := true } }

theorem myCallback_success (verify : Verifier) (s : State) (rid : Nat)
    (cl : Cleartexts) (pr : ProofBytes)
    (h1 : (getCtx s rid).processed = false)
    (h2 : currentHash s (getCtx s rid).batchId = (getCtx s rid).stateHash)
    (h3 : verify rid cl pr = true) :
    myCallback verify s rid cl pr =
      .ok (markProcessed s rid,
           [Event.DecryptionCompleted rid (getCtx s rid).batchId
              (cl.1 % 4294967296) (cl.2 % 4294967296)]) := by
  simp only [myCallback, h1, Bool.false_eq_true, if_false]
  rw [if_neg (by simpa [currentHash] using h2), if_neg (by simp [h3])]
  rfl

/-! ### Success inversions for every entry point -/

theorem transferOwnership_ok {s : State} {sender newOwner : Address}
    {s' : State} {evs : List Event}
    (h : transferOwnership s sender newOwner = .ok (s', evs)) :
    sender = s.owner ∧ s' = { s with owner := newOwner } ∧
      evs = [Event.OwnershipTransferred s.owner newOwner] := by
  unfold transferOwnership at h
  split at h
  · exact absurd h (by simp)
  rename_i h1
  simp only [Except.ok.injEq, Prod.mk.injEq] at h
  exact ⟨not_not.mp h1, h.1.symm, h.2.symm⟩

theorem addProvider_ok {s : State} {sender provider : Address}
    {s' : State} {evs : List Event}
    (h : addProvider s sender provider = .ok (s', evs)) :
    sender = s.owner ∧ s' = { s with providers := setK s.providers provider true } ∧
      evs = [Event.ProviderAdded provider] := by
  unfold addProvider at h
  split at h
  · exact absurd h (by simp)
  rename_i h1
  simp only [Except.ok.injEq, Prod.mk.injEq] at h
  exact ⟨not_not.mp h1, h.1.symm, h.2.symm⟩

theorem removeProvider_ok {s : State} {sender provider : Address}
    {s' : State} {evs : List Event}
    (h : removeProvider s sender provider = .ok (s', evs)) :
    sender = s.owner ∧ s' = { s with providers := setK s.providers provider false } ∧
      evs = [Event.ProviderRemoved provider] := by
  unfold removeProvider at h
  split at h
  · exact absurd h (by simp)
  rename_i h1
  simp only [Except.ok.injEq, Prod.mk.injEq] at h
  exact ⟨not_not.mp h1, h.1.symm, h.2.symm⟩

theorem setCooldownSeconds_ok {s : State} {sender : Address} {n : Nat}
    {s' : State} {evs : List Event}
    (h : setCooldownSeconds s sender n = .ok (s', evs)) :
    sender = s.owner ∧ n ≠ 0 ∧ s' = { s with cooldownSeconds := n } ∧
      evs = [Event.CooldownSecondsChanged s.cooldownSeconds n] := by
  unfold setCooldownSeconds at h
  split at h
  · exact absurd h (by simp)
  rename_i h1
  split at h
  · exact absurd h (by simp)
  rename_i h2
  simp only [Except.ok.injEq, Prod.mk.injEq] at h
  exact ⟨not_not.mp h1, h2, h.1.symm, h.2.symm⟩

theorem pause_ok {s : State} {sender : Address} {s' : State} {evs : List Event}
    (h : pause s sender = .ok (s', evs)) :
    sender = s.owner ∧ s.paused = false ∧ s' = { s with paused := true } ∧
      evs = [Event.Paused sender] := by
  unfold pause at h
  split at h
  · exact absurd h (by simp)
  rename_i h1
  split at h
  · exact absurd h (by simp)
  rename_i h2
  simp only [Except.ok.injEq, Prod.mk.injEq] at h
  exact ⟨not_not.mp h1, by simpa using h2, h.1.symm, h.2.symm⟩

theorem unpause_ok {s : State} {sender : Address} {s' : State} {evs : List Event}
    (h : unpause s sender = .ok (s', evs)) :
    sender = s.owner ∧ s' = { s with paused := false } ∧
      evs = [Event.Unpaused sender] := by
  unfold unpause at h
  split at h
  · exact absurd h (by simp)
  rename_i h1
  simp only [Except.ok.injEq, Prod.mk.injEq] at h
  exact ⟨not_not.mp h1, h.1.symm, h.2.symm⟩

theorem openBatch_ok {s : State} {sender : Address} {s' : State} {evs : List Event}
    (h : openBatch s sender = .ok (s', evs)) :
    sender = s.owner ∧ s.paused = false ∧ s.batchOpen = false ∧
      s' = { s with
              currentBatchId := s.currentBatchId + 1
              batchOpen := true
              batches := setK s.batches (s.currentBatchId + 1) Batch.default } ∧
      evs = [Event.BatchOpened (s.currentBatchId + 1)] := by
  unfold openBatch at h
  split at h
  · exact absurd h (by simp)
  rename_i h1
  split at h
  · exact absurd h (by simp)
  rename_i h2
  split at h
  · exact absurd h (by simp)
  rename_i h3
  simp only [Except.ok.injEq, Prod.mk.injEq] at h
  refine ⟨not_not.mp h1, by simpa using h2, by simpa using h3, ?_, h.2.symm⟩
  rw [← h.1]
  rfl

theorem closeBatch_ok {s : State} {sender : Address} {s' : State} {evs : List Event}
    (h : closeBatch s sender = .ok (s', evs)) :
    sender = s.owner ∧ s.paused = false ∧ s.batchOpen = true ∧
      s' = { s with
              batchOpen := false
              batches := setK s.batches s.currentBatchId
                { getBatch s s.currentBatchId with finalized := true } } ∧
      evs = [Event.BatchClosed s.currentBatchId] := by
  unfold closeBatch at h
  split at h
  · exact absurd h (by simp)
  rename_i h1
  split at h
  · exact absurd h (by simp)
  rename_i h2
  split at h
  · exact absurd h (by simp)
  rename_i h3
  simp only [Except.ok.injEq, Prod.mk.injEq] at h
  refine ⟨not_not.mp h1, by simpa using h2, by simpa using h3, ?_, h.2.symm⟩
  rw [← h.1]

theorem submitBond_ok {s : State} {sender : Address} {now : Nat}
    {amt mat : Handle} {s' : State} {evs : List Event}
    (h : submitBond s sender now amt mat = .ok (s', evs)) :
    lookupD s.providers sender false = true ∧ s.paused = false ∧
      lookupD s.lastSubmissionTime sender 0 + s.cooldownSeconds ≤ now ∧
      s.batchOpen = true ∧
      s' = { s with
              totalBonds := s.totalBonds + 1
              bonds := setK s.bonds (s.totalBonds + 1)
                { encryptedAmount := amt, encryptedMaturity := mat }
              batches := setK s.batches s.currentBatchId
                { getBatch s s.currentBatchId with
                   totalEncryptedAmount :=
                     FHE.add (getBatch s s.currentBatchId).totalEncryptedAmount amt
                   bondCount := (getBatch s s.currentBatchId).bondCount + 1 }
              lastSubmissionTime := setK s.lastSubmissionTime sender now } ∧
      evs = [Event.BondSubmitted sender (s.totalBonds + 1) s.currentBatchId] := by
  unfold submitBond at h
  split at h
  · exact absurd h (by simp)
  rename_i h1
  split at h
  · exact absurd h (by simp)
  rename_i h2
  split at h
  · exact absurd h (by simp)
  rename_i h3
  split at h
  · exact absurd h (by simp)
  rename_i h4
  simp only [Except.ok.injEq, Prod.mk.injEq] at h
  refine ⟨by simpa using h1, by simpa using h2, not_lt.mp h3, by simpa using h4, ?_, h.2.symm⟩
  rw [← h.1]

theorem requestBatchDecryption_ok {s : State} {sender : Address}
    {now batchId requestId : Nat} {s' : State} {evs : List Event}
    (h : requestBatchDecryption s sender now batchId requestId = .ok (s', evs)) :
    sender = s.owner ∧ s.paused = false ∧
      lookupD s.lastDecryptionRequestTime sender 0 + s.cooldownSeconds ≤ now ∧
      batchId ≠ 0 ∧ batchId ≤ s.currentBatchId ∧
      (getBatch s batchId).finalized = true ∧
      s' = { s with
              decryptionContexts := setK s.decryptionContexts requestId
                { batchId := batchId, stateHash := currentHash s batchId, processed := false }
              lastDecryptionRequestTime := setK s.lastDecryptionRequestTime sender now } ∧
      evs = [Event.DecryptionRequested requestId batchId] := by
  unfold requestBatchDecryption at h
  split at h
  · exact absurd h (by simp)
  rename_i h1
  split at h
  · exact absurd h (by simp)
  rename_i h2
  split at h
  · exact absurd h (by simp)
  rename_i h3
  split at h
  · exact absurd h (by simp)
  rename_i h4
  simp only [Except.ok.injEq, Prod.mk.injEq] at h
  push_neg at h4
  refine ⟨not_not.mp h1, by simpa using h2, not_lt.mp h3, h4.1, h4.2.1,
          by simpa using h4.2.2, ?_, h.2.symm⟩
  rw [← h.1]
  rfl

theorem myCallback_ok {verify : Verifier} {s : State} {rid : Nat}
    {cl : Cleartexts} {pr : ProofBytes} {s' : State} {evs : List Event}
    (h : myCallback verify s rid cl pr = .ok (s', evs)) :
    (getCtx s rid).processed = false ∧
      currentHash s (getCtx s rid).batchId = (getCtx s rid).stateHash ∧
      verify rid cl pr = true ∧
      s' = markProcessed s rid ∧
      evs = [Event.DecryptionCompleted rid (getCtx s rid).batchId
               (cl.1 % 4294967296) (cl.2 % 4294967296)] := by
  by_cases hproc : (getCtx s rid).processed = true
  · rw [myCallback_replay verify s rid cl pr hproc] at h
    exact absurd h (by simp)
  have hp : (getCtx s rid).processed = false := by simpa using hproc
  by_cases hhash : currentHash s (getCtx s rid).batchId = (getCtx s rid).stateHash
  · by_cases hver : verify rid cl pr = true
    · rw [myCallback_success verify s rid cl pr hp hhash hver] at h
      simp only [Except.ok.injEq, Prod.mk.injEq] at h
      exact ⟨hp, hhash, hver, h.1.symm, h.2.symm⟩
    · have hv : verify rid cl pr = false := by simpa using hver
      rw [myCallback_invalidProof verify s rid cl pr hp hhash hv] at h
      exact absurd h (by simp)
  · rw [myCallback_stateMismatch verify s rid cl pr hp hhash] at h
    exact absurd h (by simp)

/-! ### Claim theorems -/

/-- The spec's description of `submitBond` with the two `_initIfNeeded`
calls removed, to be compared with `submitBond` transcribed from the
source.  Identical body except that the defensive-initialization statements
are gone. -/
def submitBondWithoutInit (s : State) (sender : Address) (now : Nat)
    (encryptedAmount encryptedMaturity : Handle) :
    Except Err (State × List Event) :=
  if lookupD s.providers sender false = false then .error .NotProvider
  else if s.paused then .error .PausedState
  else if now < lookupD s.lastSubmissionTime sender 0 + s.cooldownSeconds then
    .error .CooldownActive
  else if s.batchOpen = false then .error .BatchNotOpen
  else
    let totalBonds' := s.totalBonds + 1
    let bondId := totalBonds'
    let b := getBatch s s.currentBatchId
    let b' := { b with
                 totalEncryptedAmount := FHE.add b.totalEncryptedAmount encryptedAmount
                 bondCount := b.bondCount + 1 }
    .ok ({ s with
            totalBonds := totalBonds'
            bonds := setK s.bonds bondId
              { encryptedAmount := encryptedAmount, encryptedMaturity := encryptedMaturity }
            batches := setK s.batches s.currentBatchId b'
            lastSubmissionTime := setK s.lastSubmissionTime sender now },
         [Event.BondSubmitted sender bondId s.currentBatchId])

/-- C9: `_initIfNeeded` has no observable effect — for every input,
`submitBond` (which performs the two `_initIfNeeded` calls of the source)
returns exactly the same outcome (success or revert, resulting state, and
emitted events) as the same function with those calls removed, because
`_initIfNeeded` discards the result of `FHE.asEuint32(0)` without storing
it anywhere. -/
theorem C9_initIfNeeded_no_observable_effect :
    ∀ (s : State) (sender : Address) (now : Nat) (amt mat : Handle),
      submitBond s sender now amt mat = submitBondWithoutInit s sender now amt mat :=
  fun _ _ _ _ _ => rfl

/-- C10: a forged callback for a request id that no `requestBatchDecryption`
ever stored is always rejected with `StateMismatch`, for every verifier,
cleartexts and proof: the default context has `stateHash = bytes32(0)`
while the recomputed commitment is a `keccak256` output, which is never the
zero word. -/
theorem C10_forged_request_id_rejected (verify : Verifier) (s : State)
    (rid : Nat) (cl : Cleartexts) (pr : ProofBytes)
    (h : getCtx s rid = DecryptionContext.default) :
    myCallback verify s rid cl pr = .error .StateMismatch := by
  apply myCallback_stateMismatch
  · rw [h]
    rfl
  · rw [h]
    simp [currentHash, hashCiphertexts, DecryptionContext.default]

/-- Closed instantiation of `C10_forged_request_id_rejected`: in the
concrete post-request state `sc6`, a callback for the never-issued request
id 9 is rejected with `StateMismatch` even though the verifier accepts
everything. -/
theorem C10_forged_request_id_rejected_witness :
    myCallback vTrue sc6 9 (350, 2) 0 = .error .StateMismatch :=
  C10_forged_request_id_rejected vTrue sc6 9 (350, 2) 0 (by decide)

/-- C4: a callback that passes the replay check and the state-hash check
but whose proof fails cryptographic verification reverts with
`InvalidProof` and leaves all storage unchanged; in particular the
context's `processed` flag remains `false`. -/
theorem C4_invalid_proof_reverts (verify : Verifier) (s : State) (rid : Nat)
    (cl : Cleartexts) (pr : ProofBytes)
    (hrep : (getCtx s rid).processed = false)
    (hhash : currentHash s (getCtx s rid).batchId = (getCtx s rid).stateHash)
    (hver : verify rid cl pr = false) :
    runCall s (myCallback verify s rid cl pr) = (s, .error .InvalidProof) ∧
      (getCtx (runCall s (myCallback verify s rid cl pr)).1 rid).processed = false := by
  rw [myCallback_invalidProof verify s rid cl pr hrep hhash hver]
  exact ⟨rfl, hrep⟩

/-- Closed instantiation of `C4_invalid_proof_reverts`: in the concrete
post-request state `sc6`, the callback for request id 5 with an
all-rejecting verifier reverts with `InvalidProof` and leaves the state
unchanged. -/
theorem C4_invalid_proof_reverts_witness :
    runCall sc6 (myCallback vFalse sc6 5 (350, 2) 0) = (sc6, .error .InvalidProof) ∧
      (getCtx (runCall sc6 (myCallback vFalse sc6 5 (350, 2) 0)).1 5).processed = false :=
  C4_invalid_proof_reverts vFalse sc6 5 (350, 2) 0 (by decide) (by decide) (by decide)

/-- C5: `myCallback` performs its checks in the exact order replay-check,
state-hash check, proof check, each short-circuiting with its own error,
and on the all-checks-pass path decodes the cleartexts as two 32-bit
unsigned integers, sets the context's `processed` flag, and emits the
completion event carrying `requestId`, `batchId`, `totalAmount` and
`bondCount`. -/
theorem C5_callback_order_and_success (verify : Verifier) (s : State)
    (rid : Nat) (cl : Cleartexts) (pr : ProofBytes) :
    ((getCtx s rid).processed = true →
        myCallback verify s rid cl pr = .error .ReplayAttempt) ∧
    ((getCtx s rid).processed = false →
      currentHash s (getCtx s rid).batchId ≠ (getCtx s rid).stateHash →
        myCallback verify s rid cl pr = .error .StateMismatch) ∧
    ((getCtx s rid).processed = false →
      currentHash s (getCtx s rid).batchId = (getCtx s rid).stateHash →
      verify rid cl pr = false →
        myCallback verify s rid cl pr = .error .InvalidProof) ∧
    ((getCtx s rid).processed = false →
      currentHash s (getCtx s rid).batchId = (getCtx s rid).stateHash →
      verify rid cl pr = true →
        myCallback verify s rid cl pr =
          .ok (markProcessed s rid,
               [Event.DecryptionCompleted rid (getCtx s rid).batchId
                  (cl.1 % 4294967296) (cl.2 % 4294967296)])) :=
  ⟨myCallback_replay verify s rid cl pr,
   myCallback_stateMismatch verify s rid cl pr,
   myCallback_invalidProof verify s rid cl pr,
   myCallback_success verify s rid cl pr⟩

/-- Closed instantiation of `C5_callback_order_and_success`: in the
concrete post-request state `sc6`, the all-checks-pass callback for request
id 5 marks the context processed and emits
`DecryptionCompleted(5, 1, 350, 2)`. -/
theorem C5_callback_order_and_success_witness :
    myCallback vTrue sc6 5 (350, 2) 0 =
      .ok (markProcessed sc6 5, [Event.DecryptionCompleted 5 1 350 2]) :=
  (C5_callback_order_and_success vTrue sc6 5 (350, 2) 0).2.2.2
    (by decide) (by decide) (by decide)

/-- C6: for an owner call while not paused and with the decryption cooldown
elapsed, `requestBatchDecryption` reverts with `InvalidBatch` exactly when
the batch id is 0, greater than `currentBatchId`, or not finalized;
otherwise it succeeds and stores a `DecryptionContext` with
`processed = false` under the oracle-issued request id. -/
theorem C6_request_validation (s : State) (sender : Address)
    (now batchId requestId : Nat)
    (hown : sender = s.owner) (hpause : s.paused = false)
    (hcd : lookupD s.lastDecryptionRequestTime sender 0 + s.cooldownSeconds ≤ now) :
    (requestBatchDecryption s sender now batchId requestId = .error .InvalidBatch ↔
      (batchId = 0 ∨ s.currentBatchId < batchId ∨
        (getBatch s batchId).finalized = false)) ∧
    (¬(batchId = 0 ∨ s.currentBatchId < batchId ∨
        (getBatch s batchId).finalized = false) →
      ∃ s' : State,
        requestBatchDecryption s sender now batchId requestId =
          .ok (s', [Event.DecryptionRequested requestId batchId]) ∧
        getCtx s' requestId =
          { batchId := batchId, stateHash := currentHash s batchId,
            processed := false }) := by
  unfold requestBatchDecryption
  rw [if_neg (by simp [hown]), if_neg (by simp [hpause]), if_neg (not_lt.mpr hcd)]
  constructor
  · by_cases hc : batchId = 0 ∨ s.currentBatchId < batchId ∨
        (getBatch s batchId).finalized = false
    · rw [if_pos hc]
      simp [hc]
    · rw [if_neg hc]
      simp [hc]
  · intro hc
    rw [if_neg hc]
    refine ⟨_, rfl, ?_⟩
    exact lookupD_setK_eq _ _ _ _

/-- Closed instantiation of `C6_request_validation`: in the concrete
post-close state `sc5` (batch 1 finalized), requesting batch id 0 reverts
with `InvalidBatch` exactly as characterized. -/
theorem C6_request_validation_witness :
    requestBatchDecryption sc5 10 3000 0 6 = .error .InvalidBatch ↔
      (0 = 0 ∨ sc5.currentBatchId < 0 ∨ (getBatch sc5 0).finalized = false) :=
  (C6_request_validation sc5 10 3000 0 6 (by decide) (by decide) (by decide)).1

theorem getCtx_markProcessed_eq (s : State) (rid : Nat) :
    getCtx (markProcessed s rid) rid = { getCtx s rid with processed := true } := by
  unfold getCtx markProcessed
  exact lookupD_setK_eq _ _ _ _

theorem getCtx_markProcessed_ne (s : State) (rid rid' : Nat) (h : rid' ≠ rid) :
    getCtx (markProcessed s rid) rid' = getCtx s rid' := by
  unfold getCtx markProcessed
  exact lookupD_setK_ne _ _ _ _ _ h

/-- A successful transaction never resets a `processed` flag: every context
processed before a step is still processed after it. -/
theorem step_preserves_processed {s s' : State} (h : Step s s') (rid : Nat)
    (hp : (getCtx s rid).processed = true) : (getCtx s' rid).processed = true := by
  cases h with
  | doTransferOwnership _ sender newOwner _ evs hok =>
    obtain ⟨-, hs, -⟩ := transferOwnership_ok hok
    subst hs; exact hp
  | doAddProvider _ sender provider _ evs hok =>
    obtain ⟨-, hs, -⟩ := addProvider_ok hok
    subst hs; exact hp
  | doRemoveProvider _ sender provider _ evs hok =>
    obtain ⟨-, hs, -⟩ := removeProvider_ok hok
    subst hs; exact hp
  | doSetCooldown _ sender n _ evs hok =>
    obtain ⟨-, -, hs, -⟩ := setCooldownSeconds_ok hok
    subst hs; exact hp
  | doPause _ sender _ evs hok =>
    obtain ⟨-, -, hs, -⟩ := pause_ok hok
    subst hs; exact hp
  | doUnpause _ sender _ evs hok =>
    obtain ⟨-, hs, -⟩ := unpause_ok hok
    subst hs; exact hp
  | doOpenBatch _ sender _ evs hok =>
    obtain ⟨-, -, -, hs, -⟩ := openBatch_ok hok
    subst hs; exact hp
  | doCloseBatch _ sender _ evs hok =>
    obtain ⟨-, -, -, hs, -⟩ := closeBatch_ok hok
    subst hs; exact hp
  | doSubmitBond _ sender now amt mat _ evs hok =>
    obtain ⟨-, -, -, -, hs, -⟩ := submitBond_ok hok
    subst hs; exact hp
  | doRequest _ sender now batchId requestId _ evs hfresh hok =>
    obtain ⟨-, -, -, -, -, -, hs, -⟩ := requestBatchDecryption_ok hok
    subst hs
    have hne : rid ≠ requestId := by
      intro he
      subst he
      have : getCtx s rid = DecryptionContext.default := by
        unfold getCtx
        exact lookupD_of_memK_false _ _ _ hfresh
      rw [this] at hp
      exact absurd hp (by simp [DecryptionContext.default])
    show (lookupD (setK s.decryptionContexts requestId _) rid _).processed = true
    rw [lookupD_setK_ne _ _ _ _ _ hne]
    exact hp
  | doCallback verify _ requestId cl pr _ evs hok =>
    obtain ⟨-, -, -, hs, -⟩ := myCallback_ok hok
    subst hs
    by_cases he : rid = requestId
    · subst he
      rw [getCtx_markProcessed_eq]
    · rw [getCtx_markProcessed_ne _ _ _ he]
      exact hp

/-- C1: for every request id, the decryption callback completes at most
once.  A `myCallback` call that reaches completion leaves the context's
`processed` flag at `true`; any `myCallback` call on a context whose
`processed` flag is already `true` reverts with `ReplayAttempt` regardless
of the cleartexts, proof, or verifier; and no transaction whatsoever (any
entry point, any caller) ever resets a `processed` flag, so a processed
context stays processed in every subsequent reachable state. -/
theorem C1_callback_at_most_once :
    (∀ (verify : Verifier) (s : State) (rid : Nat) (cl : Cleartexts)
       (pr : ProofBytes) (s' : State) (evs : List Event),
       myCallback verify s rid cl pr = .ok (s', evs) →
         (getCtx s' rid).processed = true) ∧
    (∀ (verify : Verifier) (s : State) (rid : Nat) (cl : Cleartexts)
       (pr : ProofBytes),
       (getCtx s rid).processed = true →
         myCallback verify s rid cl pr = .error .ReplayAttempt) ∧
    (∀ (s s' : State), StepStar s s' → ∀ rid : Nat,
       (getCtx s rid).processed = true → (getCtx s' rid).processed = true) := by
  refine ⟨?_, ?_, ?_⟩
  · intro verify s rid cl pr s' evs hok
    obtain ⟨-, -, -, hs, -⟩ := myCallback_ok hok
    subst hs
    rw [getCtx_markProcessed_eq]
  · intro verify s rid cl pr hp
    exact myCallback_replay verify s rid cl pr hp
  · intro s s' hstar rid
    induction hstar with
    | refl => exact fun hp => hp
    | tail s1 s2 hs hstep ih =>
      exact fun hp => step_preserves_processed hstep rid (ih hp)

/-- The state after the oracle's callback for request id 5 succeeded in the
end-to-end scenario. -/
def sc8 : State := stepOk (myCallback vTrue sc6 5 (350, 2) 0) sc6

/-- Closed instantiation of `C1_callback_at_most_once`: after the callback
for request id 5 completed (state `sc8`), a second callback with the same
request id reverts with `ReplayAttempt` even though the verifier accepts
its proof. -/
theorem C1_callback_at_most_once_witness :
    myCallback vTrue sc8 5 (350, 2) 0 = .error .ReplayAttempt :=
  C1_callback_at_most_once.2.1 vTrue sc8 5 (350, 2) 0 (by decide)

/-- The environment of one `submitBond` call: caller, block timestamp, and
the two encrypted arguments. -/
structure SubmitCall : Type where
  sender : Address
  now : Nat
  amount : Handle
  maturity : Handle
  deriving DecidableEq, Repr

/-- A sequence of `submitBond` transactions executed in order; fails with
the first reverting call's error. -/
def submitMany (s : State) : List SubmitCall → Except Err State
  | [] => .ok s
  | c :: rest =>
    match submitBond s c.sender c.now c.amount c.maturity with
    | .error e => .error e
    | .ok (s', _) => submitMany s' rest

theorem submitMany_ok {s sFin : State} {calls : List SubmitCall}
    (h : submitMany s calls = .ok sFin) :
    sFin.currentBatchId = s.currentBatchId ∧
    (getBatch sFin s.currentBatchId).bondCount
      = (getBatch s s.currentBatchId).bondCount + calls.length ∧
    (getBatch sFin s.currentBatchId).totalEncryptedAmount
      = calls.foldl (fun acc c => FHE.add acc c.amount)
          (getBatch s s.currentBatchId).totalEncryptedAmount := by
  induction calls generalizing s with
  | nil =>
    unfold submitMany at h
    simp only [Except.ok.injEq] at h
    subst h
    exact ⟨rfl, by simp, rfl⟩
  | cons c rest ih =>
    unfold submitMany at h
    cases hc : submitBond s c.sender c.now c.amount c.maturity with
    | error e =>
      rw [hc] at h
      exact absurd h (by simp)
    | ok p =>
      obtain ⟨s1, evs1⟩ := p
      rw [hc] at h
      obtain ⟨-, -, -, -, hs1, -⟩ := submitBond_ok hc
      have ihr := ih h
      subst hs1
      have hgb : getBatch { s with
          totalBonds := s.totalBonds + 1
          bonds := setK s.bonds (s.totalBonds + 1)
            { encryptedAmount := c.amount, encryptedMaturity := c.maturity }
          batches := setK s.batches s.currentBatchId
            { getBatch s s.currentBatchId with
               totalEncryptedAmount :=
                 FHE.add (getBatch s s.currentBatchId).totalEncryptedAmount c.amount
               bondCount := (getBatch s s.currentBatchId).bondCount + 1 }
          lastSubmissionTime := setK s.lastSubmissionTime c.sender c.now }
          s.currentBatchId
        = { getBatch s s.currentBatchId with
             totalEncryptedAmount :=
               FHE.add (getBatch s s.currentBatchId).totalEncryptedAmount c.amount
             bondCount := (getBatch s s.currentBatchId).bondCount + 1 } := by
        unfold getBatch
        exact lookupD_setK_eq _ _ _ _
      rw [hgb] at ihr
      obtain ⟨hcur, hcount, htotal⟩ := ihr
      refine ⟨hcur, ?_, ?_⟩
      · rw [hcount]
        simp
        omega
      · rw [htotal]
        rfl

/-- C2: starting from a freshly opened batch, after any number of
successful `submitBond` calls the batch's `bondCount` equals the number of
calls and its `totalEncryptedAmount` equals the left fold of the
homomorphic add over exactly the submitted encrypted amounts, starting from
the zero aggregate the batch was initialized with. -/
theorem C2_batch_accounting (s : State) (sender : Address) (s1 : State)
    (evs : List Event) (calls : List SubmitCall) (sFin : State)
    (hopen : openBatch s sender = .ok (s1, evs))
    (hsub : submitMany s1 calls = .ok sFin) :
    (getBatch sFin s1.currentBatchId).bondCount = calls.length ∧
    (getBatch sFin s1.currentBatchId).totalEncryptedAmount =
      calls.foldl (fun acc c => FHE.add acc c.amount) (Handle.lit 0) := by
  obtain ⟨-, -, -, hs1, -⟩ := openBatch_ok hopen
  obtain ⟨-, hcount, htotal⟩ := submitMany_ok hsub
  subst hs1
  have hgb : getBatch { s with
      currentBatchId := s.currentBatchId + 1
      batchOpen := true
      batches := setK s.batches (s.currentBatchId + 1) Batch.default }
      (s.currentBatchId + 1) = Batch.default := by
    unfold getBatch
    exact lookupD_setK_eq _ _ _ _
  refine ⟨?_, ?_⟩
  · rw [hcount, hgb]
    simp [Batch.default]
  · rw [htotal, hgb]
    rfl

/-- Closed instantiation of `C2_batch_accounting`: in the concrete
scenario, after opening batch 1 and submitting encrypted amounts `ext 100`
and `ext 250`, the batch records `bondCount = 2` and the aggregate
`FHE.add (FHE.add 0 (ext 100)) (ext 250)`. -/
theorem C2_batch_accounting_witness :
    (getBatch sc4 sc2.currentBatchId).bondCount = 2 ∧
    (getBatch sc4 sc2.currentBatchId).totalEncryptedAmount =
      Handle.add (Handle.add (Handle.lit 0) (Handle.ext 100)) (Handle.ext 250) :=
  C2_batch_accounting sc1 10 sc2 [Event.BatchOpened 1]
    [{ sender := 1, now := 1000, amount := Handle.ext 100, maturity := Handle.ext 500 },
     { sender := 1, now := 2000, amount := Handle.ext 250, maturity := Handle.ext 600 }]
    sc4 (by rfl) (by rfl)

/-- C3: with a context stored for `rid` whose `stateHash` committed to the
snapshot `(t0, c0)` of the target batch's ciphertext state (total-amount
handle and bond count, as hashed by `requestBatchDecryption`), a later
`myCallback` reverts with `StateMismatch` whenever the batch's current
ciphertext state differs from the snapshot — whether the total-amount
handle or the bond count was mutated — and when the state is unchanged the
recomputed hash equals the stored one and the state check passes (the call
never fails with `StateMismatch`).  The bond counts are bounded by `2^32`
because they are hashed through the 32-bit `FHE.asEuint32` encryption. -/
theorem C3_state_hash_commitment (verify : Verifier) (s : State) (rid : Nat)
    (cl : Cleartexts) (pr : ProofBytes) (t0 : Handle) (c0 : Nat)
    (hproc : (getCtx s rid).processed = false)
    (hstored : (getCtx s rid).stateHash =
      hashCiphertexts (pair2 (FHE.toBytes32 t0) (FHE.toBytes32 (FHE.asEuint32 c0)))
        s.selfAddr)
    (hc0 : c0 < 4294967296)
    (hc1 : (getBatch s (getCtx s rid).batchId).bondCount < 4294967296) :
    (((getBatch s (getCtx s rid).batchId).totalEncryptedAmount ≠ t0 ∨
       (getBatch s (getCtx s rid).batchId).bondCount ≠ c0) →
      myCallback verify s rid cl pr = .error .StateMismatch) ∧
    (((getBatch s (getCtx s rid).batchId).totalEncryptedAmount = t0 ∧
       (getBatch s (getCtx s rid).batchId).bondCount = c0) →
      currentHash s (getCtx s rid).batchId = (getCtx s rid).stateHash ∧
      myCallback verify s rid cl pr ≠ .error .StateMismatch) := by
  constructor
  · intro hmut
    apply myCallback_stateMismatch verify s rid cl pr hproc
    rw [hstored]
    simp only [currentHash, hashCiphertexts, pair2, FHE.toBytes32, FHE.asEuint32]
    intro heq
    injection heq with hcts hself
    injection hcts with hfst hrest
    injection hrest with hsnd htail
    injection hfst with ht
    injection hsnd with henc
    injection henc with hc
    rw [Nat.mod_eq_of_lt hc1, Nat.mod_eq_of_lt hc0] at hc
    rcases hmut with hbad | hbad
    · exact hbad ht
    · exact hbad hc
  · rintro ⟨ht, hc⟩
    have hh : currentHash s (getCtx s rid).batchId = (getCtx s rid).stateHash := by
      rw [hstored]
      simp only [currentHash, hashCiphertexts, pair2, FHE.toBytes32, FHE.asEuint32]
      rw [ht, hc]
    refine ⟨hh, ?_⟩
    by_cases hv : verify rid cl pr = true
    · rw [myCallback_success verify s rid cl pr hproc hh hv]
      simp
    · rw [myCallback_invalidProof verify s rid cl pr hproc hh (by simpa using hv)]
      simp

/-- The post-request state `sc6` after an out-of-band tampering of batch
1's stored total-amount ciphertext (the spec's "test harness tampers with
stored ciphertext" scenario). -/
def tamperedBatch : Batch :=
  { totalEncryptedAmount := Handle.ext 999, bondCount := 2, finalized := true }

def sc6Tampered : State :=
  { sc6 with batches := setK sc6.batches 1 tamperedBatch }

/-- Closed instantiation of `C3_state_hash_commitment`: after batch 1's
aggregate ciphertext was replaced behind the stored commitment, the
callback for request id 5 reverts with `StateMismatch` even with an
all-accepting verifier. -/
theorem C3_state_hash_commitment_witness :
    myCallback vTrue sc6Tampered 5 (350, 2) 0 = .error .StateMismatch :=
  (C3_state_hash_commitment vTrue sc6Tampered 5 (350, 2) 0
      (Handle.add (Handle.add (Handle.lit 0) (Handle.ext 100)) (Handle.ext 250)) 2
      (by decide) (by decide) (by decide) (by decide)).1
    (Or.inl (by decide))

/-- C8 counterexample: the claim states that while paused the decryption
callback `myCallback` reverts with `PausedState`, but `myCallback` carries
no `whenNotPaused` modifier.  In the concrete paused state `sc7` (the
end-to-end scenario paused right after the decryption request) the callback
for request id 5 completes successfully — it mutates state and emits the
completion event instead of reverting with `PausedState`. -/
theorem C8_counterexample_callback_not_pause_gated :
    sc7.paused = true ∧
    myCallback vTrue sc7 5 (350, 2) 0 =
      .ok (markProcessed sc7 5, [Event.DecryptionCompleted 5 1 350 2]) := by
  constructor
  · decide
  · rfl

/-- C8 (amended): while the contract is paused, the four pause-gated entry
points `openBatch`, `closeBatch`, `submitBond` and `requestBatchDecryption`
revert with `PausedState` (for callers that pass their preceding
authorization modifier), whereas `myCallback` has no pause gate at all —
it never reverts with `PausedState` — and `unpause`,
`transferOwnership`, `addProvider`, `removeProvider` and
`setCooldownSeconds` remain callable by the owner while paused. -/
theorem C8_pause_gating (s : State) (sender : Address)
    (hpaused : s.paused = true) :
    (sender = s.owner → openBatch s sender = .error .PausedState) ∧
    (sender = s.owner → closeBatch s sender = .error .PausedState) ∧
    (∀ (now : Nat) (amt mat : Handle), lookupD s.providers sender false = true →
       submitBond s sender now amt mat = .error .PausedState) ∧
    (∀ now batchId rid : Nat, sender = s.owner →
       requestBatchDecryption s sender now batchId rid = .error .PausedState) ∧
    (∀ (verify : Verifier) (rid : Nat) (cl : Cleartexts) (pr : ProofBytes),
       myCallback verify s rid cl pr ≠ .error .PausedState) ∧
    (sender = s.owner →
       unpause s sender = .ok ({ s with paused := false }, [Event.Unpaused sender])) ∧
    (∀ newOwner : Address, sender = s.owner →
       transferOwnership s sender newOwner =
         .ok ({ s with owner := newOwner },
              [Event.OwnershipTransferred s.owner newOwner])) ∧
    (∀ p : Address, sender = s.owner →
       addProvider s sender p =
         .ok ({ s with providers := setK s.providers p true },
              [Event.ProviderAdded p])) ∧
    (∀ p : Address, sender = s.owner →
       removeProvider s sender p =
         .ok ({ s with providers := setK s.providers p false },
              [Event.ProviderRemoved p])) ∧
    (∀ n : Nat, sender = s.owner → n ≠ 0 →
       setCooldownSeconds s sender n =
         .ok ({ s with cooldownSeconds := n },
              [Event.CooldownSecondsChanged s.cooldownSeconds n])) := by
  refine ⟨?_, ?_, ?_, ?_, ?_, ?_, ?_, ?_, ?_, ?_⟩
  · intro hown
    unfold openBatch
    rw [if_neg (by simp [hown]), if_pos hpaused]
  · intro hown
    unfold closeBatch
    rw [if_neg (by simp [hown]), if_pos hpaused]
  · intro now amt mat hprov
    unfold submitBond
    rw [if_neg (by simp [hprov]), if_pos hpaused]
  · intro now batchId rid hown
    unfold requestBatchDecryption
    rw [if_neg (by simp [hown]), if_pos hpaused]
  · intro verify rid cl pr
    by_cases hproc : (getCtx s rid).processed = true
    · rw [myCallback_replay verify s rid cl pr hproc]
      simp
    have hp : (getCtx s rid).processed = false := by simpa using hproc
    by_cases hh : currentHash s (getCtx s rid).batchId = (getCtx s rid).stateHash
    · by_cases hv : verify rid cl pr = true
      · rw [myCallback_success verify s rid cl pr hp hh hv]
        simp
      · rw [myCallback_invalidProof verify s rid cl pr hp hh (by simpa using hv)]
        simp
    · rw [myCallback_stateMismatch verify s rid cl pr hp hh]
      simp
  · intro hown
    unfold unpause
    rw [if_neg (by simp [hown])]
  · intro newOwner hown
    unfold transferOwnership
    rw [if_neg (by simp [hown])]
  · intro p hown
    unfold addProvider
    rw [if_neg (by simp [hown])]
  · intro p hown
    unfold removeProvider
    rw [if_neg (by simp [hown])]
  · intro n hown hn
    unfold setCooldownSeconds
    rw [if_neg (by simp [hown]), if_neg hn]

/-- Closed instantiation of `C8_pause_gating`: in the concrete paused state
`sc7` the owner's `openBatch` reverts with `PausedState`. -/
theorem C8_pause_gating_witness :
    openBatch sc7 10 = .error .PausedState :=
  (C8_pause_gating sc7 10 (by decide)).1 (by decide)

/-- The batch-store invariant of every reachable state: no batch slot
beyond `currentBatchId` has ever been written, and while a batch is open
the current batch is not finalized. -/
def Inv (s : State) : Prop :=
  (∀ id : Nat, s.currentBatchId < id → getBatch s id = Batch.default) ∧
  (s.batchOpen = true → (getBatch s s.currentBatchId).finalized = false)

theorem inv_initial (deployer self : Address) : Inv (initialState deployer self) := by
  constructor
  · intro id h
    rfl
  · intro h
    exact absurd h (by simp [initialState])

theorem inv_step {s s' : State} (hinv : Inv s) (h : Step s s') : Inv s' := by
  obtain ⟨hbound, hopenf⟩ := hinv
  cases h with
  | doTransferOwnership _ sender newOwner _ evs hok =>
    obtain ⟨-, hs, -⟩ := transferOwnership_ok hok
    subst hs; exact ⟨hbound, hopenf⟩
  | doAddProvider _ sender provider _ evs hok =>
    obtain ⟨-, hs, -⟩ := addProvider_ok hok
    subst hs; exact ⟨hbound, hopenf⟩
  | doRemoveProvider _ sender provider _ evs hok =>
    obtain ⟨-, hs, -⟩ := removeProvider_ok hok
    subst hs; exact ⟨hbound, hopenf⟩
  | doSetCooldown _ sender n _ evs hok =>
    obtain ⟨-, -, hs, -⟩ := setCooldownSeconds_ok hok
    subst hs; exact ⟨hbound, hopenf⟩
  | doPause _ sender _ evs hok =>
    obtain ⟨-, -, hs, -⟩ := pause_ok hok
    subst hs; exact ⟨hbound, hopenf⟩
  | doUnpause _ sender _ evs hok =>
    obtain ⟨-, hs, -⟩ := unpause_ok hok
    subst hs; exact ⟨hbound, hopenf⟩
  | doOpenBatch _ sender _ evs hok =>
    obtain ⟨-, -, -, hs, -⟩ := openBatch_ok hok
    subst hs
    constructor
    · intro id hid
      have hid' : s.currentBatchId + 1 < id := hid
      show lookupD (setK s.batches (s.currentBatchId + 1) Batch.default) id Batch.default
             = Batch.default
      rw [lookupD_setK_ne _ _ _ _ _ (by omega)]
      exact hbound id (by omega)
    · intro _
      show (lookupD (setK s.batches (s.currentBatchId + 1) Batch.default)
              (s.currentBatchId + 1) Batch.default).finalized = false
      rw [lookupD_setK_eq]
      rfl
  | doCloseBatch _ sender _ evs hok =>
    obtain ⟨-, -, hopen, hs, -⟩ := closeBatch_ok hok
    subst hs
    constructor
    · intro id hid
      have hid' : s.currentBatchId < id := hid
      show lookupD (setK s.batches s.currentBatchId _) id Batch.default = Batch.default
      rw [lookupD_setK_ne _ _ _ _ _ (by omega)]
      exact hbound id hid'
    · intro hcontra
      exact absurd hcontra (by simp)
  | doSubmitBond _ sender now amt mat _ evs hok =>
    obtain ⟨-, -, -, hopen, hs, -⟩ := submitBond_ok hok
    subst hs
    constructor
    · intro id hid
      have hid' : s.currentBatchId < id := hid
      show lookupD (setK s.batches s.currentBatchId _) id Batch.default = Batch.default
      rw [lookupD_setK_ne _ _ _ _ _ (by omega)]
      exact hbound id hid'
    · intro _
      show (lookupD (setK s.batches s.currentBatchId _) s.currentBatchId
              Batch.default).finalized = false
      rw [lookupD_setK_eq]
      exact hopenf hopen
  | doRequest _ sender now batchId requestId _ evs hfresh hok =>
    obtain ⟨-, -, -, -, -, -, hs, -⟩ := requestBatchDecryption_ok hok
    subst hs; exact ⟨hbound, hopenf⟩
  | doCallback verify _ requestId cl pr _ evs hok =>
    obtain ⟨-, -, -, hs, -⟩ := myCallback_ok hok
    subst hs; exact ⟨hbound, hopenf⟩

theorem inv_reachable {s : State} (h : Reachable s) : Inv s := by
  induction h with
  | init deployer self => exact inv_initial deployer self
  | step s1 s2 hr hstep ih => exact inv_step ih hstep

/-- One successful transaction leaves every finalized batch record
untouched. -/
theorem step_preserves_finalized_batch {s s' : State} (hinv : Inv s)
    (h : Step s s') (id : Nat) (hfin : (getBatch s id).finalized = true) :
    getBatch s' id = getBatch s id := by
  obtain ⟨hbound, hopenf⟩ := hinv
  have hle : id ≤ s.currentBatchId := by
    by_contra hgt
    have := hbound id (by omega)
    rw [this] at hfin
    exact absurd hfin (by simp [Batch.default])
  cases h with
  | doTransferOwnership _ sender newOwner _ evs hok =>
    obtain ⟨-, hs, -⟩ := transferOwnership_ok hok
    subst hs; rfl
  | doAddProvider _ sender provider _ evs hok =>
    obtain ⟨-, hs, -⟩ := addProvider_ok hok
    subst hs; rfl
  | doRemoveProvider _ sender provider _ evs hok =>
    obtain ⟨-, hs, -⟩ := removeProvider_ok hok
    subst hs; rfl
  | doSetCooldown _ sender n _ evs hok =>
    obtain ⟨-, -, hs, -⟩ := setCooldownSeconds_ok hok
    subst hs; rfl
  | doPause _ sender _ evs hok =>
    obtain ⟨-, -, hs, -⟩ := pause_ok hok
    subst hs; rfl
  | doUnpause _ sender _ evs hok =>
    obtain ⟨-, hs, -⟩ := unpause_ok hok
    subst hs; rfl
  | doOpenBatch _ sender _ evs hok =>
    obtain ⟨-, -, -, hs, -⟩ := openBatch_ok hok
    subst hs
    show lookupD (setK s.batches (s.currentBatchId + 1) Batch.default) id Batch.default
           = getBatch s id
    rw [lookupD_setK_ne _ _ _ _ _ (by omega)]
    rfl
  | doCloseBatch _ sender _ evs hok =>
    obtain ⟨-, -, hopen, hs, -⟩ := closeBatch_ok hok
    subst hs
    have hne : id ≠ s.currentBatchId := by
      intro he
      rw [he] at hfin
      rw [hopenf hopen] at hfin
      exact absurd hfin (by simp)
    show lookupD (setK s.batches s.currentBatchId _) id Batch.default = getBatch s id
    rw [lookupD_setK_ne _ _ _ _ _ hne]
    rfl
  | doSubmitBond _ sender now amt mat _ evs hok =>
    obtain ⟨-, -, -, hopen, hs, -⟩ := submitBond_ok hok
    subst hs
    have hne : id ≠ s.currentBatchId := by
      intro he
      rw [he] at hfin
      rw [hopenf hopen] at hfin
      exact absurd hfin (by simp)
    show lookupD (setK s.batches s.currentBatchId _) id Batch.default = getBatch s id
    rw [lookupD_setK_ne _ _ _ _ _ hne]
    rfl
  | doRequest _ sender now batchId requestId _ evs hfresh hok =>
    obtain ⟨-, -, -, -, -, -, hs, -⟩ := requestBatchDecryption_ok hok
    subst hs; rfl
  | doCallback verify _ requestId cl pr _ evs hok =>
    obtain ⟨-, -, -, hs, -⟩ := myCallback_ok hok
    subst hs; rfl

theorem stepStar_inv {s s' : State} (hinv : Inv s) (hstar : StepStar s s') :
    Inv s' := by
  induction hstar with
  | refl => exact hinv
  | tail s1 s2 hs hstep ih => exact inv_step ih hstep

theorem stepStar_preserves_finalized_batch {s s' : State} (hinv : Inv s)
    (hstar : StepStar s s') (id : Nat)
    (hfin : (getBatch s id).finalized = true) :
    getBatch s' id = getBatch s id := by
  induction hstar with
  | refl => rfl
  | tail s1 s2 hs hstep ih =>
    have h1 : getBatch s1 id = getBatch s id := ih
    have h2 := step_preserves_finalized_batch (stepStar_inv hinv hs) hstep id
      (by rw [h1]; exact hfin)
    rw [h2, h1]

/-- C7: once `closeBatch` finalizes a batch, its `totalEncryptedAmount` and
`bondCount` are never changed by any later sequence of transactions (batch
lifecycle, submissions, decryption protocol, or administrative calls) from
any reachable state, and every `openBatch` from a reachable state targets
the strictly larger fresh batch id `currentBatchId + 1`, whose slot was
never written before. -/
theorem C7_finalized_batch_immutable :
    (∀ s : State, Reachable s → ∀ id : Nat, (getBatch s id).finalized = true →
      ∀ s' : State, StepStar s s' →
        (getBatch s' id).totalEncryptedAmount = (getBatch s id).totalEncryptedAmount ∧
        (getBatch s' id).bondCount = (getBatch s id).bondCount ∧
        (getBatch s' id).finalized = true) ∧
    (∀ (s : State) (sender : Address) (s' : State) (evs : List Event),
      Reachable s → openBatch s sender = .ok (s', evs) →
        s'.currentBatchId = s.currentBatchId + 1 ∧
        getBatch s s'.currentBatchId = Batch.default) := by
  constructor
  · intro s hr id hfin s' hstar
    have h := stepStar_preserves_finalized_batch (inv_reachable hr) hstar id hfin
    rw [h]
    exact ⟨rfl, rfl, hfin⟩
  · intro s sender s' evs hr hok
    obtain ⟨-, -, -, hs, -⟩ := openBatch_ok hok
    obtain ⟨hbound, -⟩ := inv_reachable hr
    subst hs
    exact ⟨rfl, hbound (s.currentBatchId + 1) (Nat.lt_succ_self _)⟩

/-- The end-to-end scenario state `sc5` is reachable: deploy, register the
provider, open batch 1, submit two bonds, close the batch. -/
theorem reachable_sc5 : Reachable sc5 :=
  Reachable.step sc4 sc5
    (Reachable.step sc3 sc4
      (Reachable.step sc2 sc3
        (Reachable.step sc1 sc2
          (Reachable.step sc0 sc1 (Reachable.init 10 7)
            (Step.doAddProvider sc0 10 1 sc1 [Event.ProviderAdded 1] (by rfl)))
          (Step.doOpenBatch sc1 10 sc2 [Event.BatchOpened 1] (by rfl)))
        (Step.doSubmitBond sc2 1 1000 (Handle.ext 100) (Handle.ext 500) sc3
          [Event.BondSubmitted 1 1 1] (by rfl)))
      (Step.doSubmitBond sc3 1 2000 (Handle.ext 250) (Handle.ext 600) sc4
        [Event.BondSubmitted 1 2 1] (by rfl)))
    (Step.doCloseBatch sc4 10 sc5 [Event.BatchClosed 1] (by rfl))

/-- The scenario state after a second batch is opened on top of `sc5`. -/
def sc5Open2 : State := stepOk (openBatch sc5 10) sc5

/-- Closed instantiation of `C7_finalized_batch_immutable`: after batch 1
was finalized in the concrete scenario, opening batch 2 leaves batch 1's
aggregate and count untouched and it stays finalized. -/
theorem C7_finalized_batch_immutable_witness :
    (getBatch sc5Open2 1).totalEncryptedAmount = (getBatch sc5 1).totalEncryptedAmount ∧
    (getBatch sc5Open2 1).bondCount = (getBatch sc5 1).bondCount ∧
    (getBatch sc5Open2 1).finalized = true :=
  C7_finalized_batch_immutable.1 sc5 reachable_sc5 1 (by decide) sc5Open2
    (StepStar.tail sc5 sc5 sc5Open2 (StepStar.refl sc5)
      (Step.doOpenBatch sc5 10 sc5Open2 [Event.BatchOpened 2] (by rfl)))

end SBF
